import Mathlib

/-!
Verification development for the fintracker import pipeline.

This file gives a shallow embedding, in Lean, of the column-mapper and
CSV-parser services (src/services/columnMapper.ts and
src/services/csvParser.ts) and proves or refutes the documented
properties of the pipeline against that embedding.

Modelling conventions:
 - JavaScript strings are Lean String values; character-level operations
   work on String.data (List Char). Only ASCII behaviour is modelled
   (headers and cells in this code base are ASCII).
 - JavaScript numbers are modelled as exact rationals. The source
   only compares parsed amounts with 0 and converts integral amounts
   back to strings, for which rational arithmetic agrees with IEEE
   doubles; the one rounding-sensitive spot (the 0.7 similarity
   threshold) is modelled by the exact test 10*common >= 7*len, which
   agrees with the double comparison for all string lengths that can
   occur (the nearest double to 0.7 is below 0.7 and no fraction with a
   small denominator falls between them).
 - parseFloat returning NaN is modelled as Option.none.
 - Thrown exceptions are modelled with Except.
-/

namespace Fintracker

/-- ASCII lower-casing, as String.prototype.toLowerCase acts on ASCII. -/
def toLowerJS (c : Char) : Char :=
  if 'A' ≤ c ∧ c ≤ 'Z' then Char.ofNat (c.toNat + 32) else c

/-- Whitespace class: the characters of the JS \s class that occur in
this code base (space, tab, newline, carriage return). -/
def isWsChar (c : Char) : Bool :=
  c = ' ' || c = '\t' || c = '\n' || c = '\r'

/-- JS String.prototype.trim restricted to the whitespace above. -/
def strTrim (s : String) : String :=
  String.mk (((s.data.dropWhile isWsChar).reverse.dropWhile isWsChar).reverse)

/-- Lower-case a whole string. -/
def lowerStr (s : String) : String :=
  String.mk (s.data.map toLowerJS)

/-- needle occurs as a contiguous infix of hay (JS String.prototype.includes;
the empty needle is found everywhere, as in JS). -/
def listInfixOf (needle : List Char) : List Char → Bool
  | [] => needle.isEmpty
  | h :: t => needle.isPrefixOf (h :: t) || listInfixOf needle t

/-- hay.includes(needle) of JS. -/
def strIncludes (hay needle : String) : Bool :=
  listInfixOf needle.data hay.data

/-! ## columnMapper.ts: data model -/

/-- The ColumnType union of columnMapper.ts. -/
inductive ColumnType where
  | type | date | description | amount | debit | credit
  | category | account | frequency | name | balance | total | ignore
deriving DecidableEq

/-- The file-format union used both by the classifier and by
ParsedCSVData.format. -/
inductive FileFormat where
  | bankStatement | financialStatement | simple | unknown
deriving DecidableEq

/-- The COLUMN_ALIASES table, verbatim from columnMapper.ts. -/
def COLUMN_ALIASES : ColumnType → List String
  | .type => ["type", "txtype", "transaction type", "kind", "category type"]
  | .date => ["date", "transaction date", "posting date", "date posted",
              "trans date", "date of transaction"]
  | .description => ["description", "memo", "detail", "transaction description",
                     "note", "narrative", "details", "name"]
  | .amount => ["amount", "amt", "transaction amount", "value", "total", "sum"]
  | .debit => ["debit", "debit amount", "withdrawal", "debit amt", "expenses", "out"]
  | .credit => ["credit", "credit amount", "deposit", "credit amt", "income", "in"]
  | .category => ["category", "cat", "expense category", "income category", "type"]
  | .account => ["account", "account name", "account #", "account number", "acct"]
  | .frequency => ["frequency", "freq", "recurring", "period", "cadence"]
  | .name => ["name", "account name", "item name", "description", "title"]
  | .balance => ["balance", "running balance", "balance after", "account balance", "bal"]
  | .total => ["total", "subtotal", "sum", "amount total"]
  | .ignore => []

/-- Key insertion order of the COLUMN_ALIASES object literal: the order in
which Object.entries iterates the catalog. -/
def COLUMN_ORDER : List ColumnType :=
  [.type, .date, .description, .amount, .debit, .credit, .category,
   .account, .frequency, .name, .balance, .total, .ignore]

/-- Collapse every maximal run of separator characters to one space
(the first regex replace of the source: any run of whitespace,
underscore, hyphen, slash or backslash). The flag records whether the
previous character was part of a separator run. -/
def collapseSepsAux (prevSep : Bool) : List Char → List Char
  | [] => []
  | c :: rest =>
    if c = ' ' || c = '\t' || c = '\n' || c = '\r' || c = '_' || c = '-'
        || c = '/' || c = '\\' then
      if prevSep then collapseSepsAux true rest
      else ' ' :: collapseSepsAux true rest
    else c :: collapseSepsAux false rest

/-- normalizeHeader of columnMapper.ts: lower-case, trim, collapse
separator runs to single spaces, trim again. (After the first collapse
the only whitespace left is single spaces, so the second regex replace
of the source, \s+ to one space, is the identity and is omitted.) -/
def normalizeHeader (header : String) : String :=
  strTrim (String.mk (collapseSepsAux false (strTrim (lowerStr header)).data))

/-- isSimilar of columnMapper.ts with its default 0.7 threshold. The
double comparison commonChars / longer.length >= 0.7 is modelled by the
exact rational test 10 * commonChars >= 7 * longer.length (see the file
header). The maxDistance local of the source is computed but never
used, so it is omitted. -/
def isSimilar (str1 str2 : String) : Bool :=
  if str1 = "" || str2 = "" then false
  else if strIncludes str1 str2 || strIncludes str2 str1 then true
  else
    let longer := if str1.data.length > str2.data.length then str1 else str2
    let shorter := if str1.data.length > str2.data.length then str2 else str1
    let commonChars := (shorter.data.filter (fun c => longer.data.contains c)).length
    10 * commonChars ≥ 7 * longer.data.length

/-- The per-alias score used inside the reduce of detectColumnType (and
in scoreSuggestion): exact 100, header contains alias 80, alias
contains header 60, similar 40, else 0. -/
def scoreAlias (normalized al : String) : Nat :=
  if al = normalized then 100
  else if strIncludes normalized al then 80
  else if strIncludes al normalized then 60
  else if isSimilar normalized al then 40
  else 0

/-- The reduce of detectColumnType: the alias scores of one column type
are summed (not maximised). -/
def matchScore (normalized : String) (t : ColumnType) : Nat :=
  (COLUMN_ALIASES t).foldl (fun score al => score + scoreAlias normalized al) 0

/-- scoreSuggestion of columnMapper.ts: the maximum per-alias score.
(The source uses Math.max over the mapped list, which is -Infinity for
an empty alias list; the only type with an empty list, ignore, can
never reach this function because its matchScore is always 0, so a 0
base is faithful on all reachable inputs.) -/
def scoreSuggestion (normalized : String) (t : ColumnType) : Nat :=
  ((COLUMN_ALIASES t).map (scoreAlias normalized)).foldl max 0

/-- Stable insertion sort: insert x before the first element strictly
below it, keeping equals in their original order. Models the stable
Array.prototype.sort of JS with a by-key descending comparator. -/
def insertByKeyDesc (key : ColumnType → Nat) (x : ColumnType) :
    List ColumnType → List ColumnType
  | [] => [x]
  | y :: rest =>
    if key y ≥ key x then y :: insertByKeyDesc key x rest
    else x :: y :: rest

/-- Stable sort, descending by key. -/
def sortByKeyDesc (key : ColumnType → Nat) : List ColumnType → List ColumnType
  | [] => []
  | x :: rest => insertByKeyDesc key x (sortByKeyDesc key rest)

/-- Result record of detectColumnType. -/
structure DetectedColumnType where
  type : ColumnType
  confidence : Nat
  suggestions : List ColumnType
deriving DecidableEq

/-- The scan loop of detectColumnType over the alias catalog, carrying
the best match, best score and the accumulated suggestion list; an
exact alias match returns immediately with confidence 100. -/
def detectAux (normalized : String) :
    List ColumnType → ColumnType → Nat → List ColumnType → DetectedColumnType
  | [], bestMatch, bestScore, suggestions =>
    let top := (sortByKeyDesc (scoreSuggestion normalized) suggestions).take 3
    { type := bestMatch
      confidence := min bestScore 100
      suggestions := if top = [] then [bestMatch] else top }
  | t :: rest, bestMatch, bestScore, suggestions =>
    if (COLUMN_ALIASES t).contains normalized then
      { type := t, confidence := 100, suggestions := [t] }
    else
      let ms := matchScore normalized t
      if ms > 0 then
        if ms > bestScore then detectAux normalized rest t ms (suggestions ++ [t])
        else detectAux normalized rest bestMatch bestScore (suggestions ++ [t])
      else detectAux normalized rest bestMatch bestScore suggestions

/-- detectColumnType of columnMapper.ts. (The columnIndex and
allHeaders parameters of the source are never used in its body and are
dropped here.) -/
def detectColumnType (header : String) : DetectedColumnType :=
  detectAux (normalizeHeader header) COLUMN_ORDER .ignore 0 []

/-! ## columnMapper.ts: detectColumns and detectFileFormat -/

/-- A ColumnMapping: JS object with numeric keys, iterated by
Object.entries in ascending numeric key order. detectColumns builds it
with keys 0..n-1 in order, so a list of index/type pairs in that order
is a faithful model. -/
abbrev ColumnMapping := List (Nat × ColumnType)

/-- DetectedColumns of columnMapper.ts. confidence is an Int because
Math.round of the source can (and does) leave 0..100. -/
structure DetectedColumns where
  mapping : ColumnMapping
  confidence : Int
  detectedFormat : FileFormat
  suggestions : List (Nat × List ColumnType)
deriving DecidableEq

/-- Math.round((num/den) * 1) for non-negative integer num and den:
round(x) = floor(x + 1/2), and floor(num/den + 1/2) =
(2*num + den) / (2*den) in flooring natural division. (For den = 0 the
JS expression is NaN; natural division by zero gives 0 here.) -/
def jsRoundDiv (num den : Nat) : Nat := (2 * num + den) / (2 * den)

/-- The rule-1 condition of detectFileFormat: date and description
columns plus an amount-bearing column. -/
def bankCond (types : List ColumnType) : Bool :=
  types.contains .date && types.contains .description &&
    (types.contains .amount || types.contains .debit || types.contains .credit)

/-- The rule-3 condition of detectFileFormat: a type-or-name-bearing
column plus an amount-bearing column. (The source also computes a
hasFrequency flag that its condition never uses.) -/
def simpleCond (types : List ColumnType) : Bool :=
  ((types.contains .type || types.contains .category) ||
     (types.contains .name || types.contains .description)) &&
    (types.contains .amount || types.contains .debit || types.contains .credit)

/-- detectFileFormat of columnMapper.ts. Rule 2 reflects the source
precedence: jan-token OR (text-total AND a column typed total), since
JS && binds tighter than ||. -/
def detectFileFormat (mapping : ColumnMapping) (headers : List String) : FileFormat :=
  let types := mapping.map (·.2)
  let headerText := lowerStr (String.intercalate " " headers)
  if bankCond types then .bankStatement
  else if strIncludes headerText "jan" || strIncludes headerText "jan 2" ||
      (strIncludes headerText "total" && types.contains .total) then
    .financialStatement
  else if simpleCond types then .simple
  else .unknown

/-- detectColumns of columnMapper.ts. The headers.forEach loop fills
mapping and suggestions index by index and sums the per-column
confidences; the output confidence is
Math.round((totalConfidence / headers.length) * 100) - note the extra
factor of 100 in the source. Division by zero (empty headers, NaN in
JS) is modelled by the rational convention 0 / 0 = 0. -/
def detectColumns (headers : List String) : DetectedColumns :=
  let detected := headers.map detectColumnType
  let mapping : ColumnMapping := (detected.map (·.type)).enum
  let suggestions := (detected.map (·.suggestions)).enum
  let totalConfidence := (detected.map (·.confidence)).sum
  let averageConfidence : Int :=
    (jsRoundDiv (totalConfidence * 100) headers.length : Int)
  { mapping := mapping
    confidence := averageConfidence
    detectedFormat := detectFileFormat mapping headers
    suggestions := suggestions }

/-! ## columnMapper.ts: mapRow -/

/-- A row object: canonical field name to string value, keys kept in
insertion order (JS object semantics: updating an existing key keeps
its position, a new key is appended). -/
abbrev ParsedRow := List (String × String)

/-- Read a key (JS property access; absent gives undefined, here none). -/
def getKey : ParsedRow → String → Option String
  | [], _ => none
  | (k', v') :: rest, k => if k' = k then some v' else getKey rest k

/-- Write a key with JS object-update semantics. -/
def setKey : ParsedRow → String → String → ParsedRow
  | [], k, v => [(k, v)]
  | (k', v') :: rest, k, v =>
    if k' = k then (k, v) :: rest else (k', v') :: setKey rest k v

/-- JS truthiness of an optional string field: present and non-empty. -/
def truthy (o : Option String) : Bool := o.getD "" ≠ ""

/-- One arm of the switch inside the Object.entries loop of mapRow.
For description and name columns the source writes
mappedRow[Name] = value || mappedRow[Name] || empty, so a non-empty
value always overwrites and an empty value keeps what is there. -/
def mapRowStep (r : ParsedRow) (value : String) : ColumnType → ParsedRow
  | .type => setKey r "Type" value
  | .date => setKey r "Date" value
  | .description => setKey r "Name" (if value ≠ "" then value else (getKey r "Name").getD "")
  | .name => setKey r "Name" (if value ≠ "" then value else (getKey r "Name").getD "")
  | .amount => setKey r "Amount" value
  | .debit => setKey r "Debit" value
  | .credit => setKey r "Credit" value
  | .category => setKey r "Category" value
  | .account => setKey r "Account" value
  | .frequency => setKey r "Frequency" value
  | .balance => setKey r "Balance" value
  | .total => setKey r "Total" value
  | .ignore => r

/-- mapRow of columnMapper.ts: fold the mapping entries, reading each
cell as rawRow[index] || empty (out-of-range and empty cells both give
the empty string). The headers parameter of the source is unused in
its body but kept in the signature. -/
def mapRow (rawRow : List String) (mapping : ColumnMapping)
    (_headers : List String) : ParsedRow :=
  mapping.foldl (fun r e => mapRowStep r (rawRow.getD e.1 "") e.2) []

/-! ## csvParser.ts: numeric helpers -/

/-- Decimal digits to a natural number. -/
def digitsToNat (ds : List Char) : Nat :=
  ds.foldl (fun n c => 10 * n + (c.toNat - 48)) 0

/-- Exponent suffix of a JS float literal: optional sign then digits;
when no digit follows the marker the exponent is ignored (0). -/
def parseExpPart (cs : List Char) : Int :=
  let (neg, cs') := match cs with
    | '-' :: rest => (true, rest)
    | '+' :: rest => (false, rest)
    | _ => (false, cs)
  let ds := cs'.takeWhile Char.isDigit
  if ds = [] then 0
  else if neg then -(digitsToNat ds : Int) else (digitsToNat ds : Int)

/-- JS parseFloat on decimal notation, as an exact rational (none
models NaN): skip leading whitespace, optional sign, digits, optional
fraction, optional exponent; trailing garbage is ignored; at least one
mantissa digit is required. (The Infinity literal is not modelled; it
cannot arise from the cell values this pipeline feeds in.) -/
def parseFloatJS (s : String) : Option ℚ :=
  let cs := s.data.dropWhile isWsChar
  let (neg, cs0) : Bool × List Char := match cs with
    | '-' :: rest => (true, rest)
    | '+' :: rest => (false, rest)
    | _ => (false, cs)
  let intDigits := cs0.takeWhile Char.isDigit
  let cs1 := cs0.dropWhile Char.isDigit
  let (fracDigits, cs2) : List Char × List Char := match cs1 with
    | '.' :: rest => (rest.takeWhile Char.isDigit, rest.dropWhile Char.isDigit)
    | _ => ([], cs1)
  if intDigits = [] && fracDigits = [] then none
  else
    let mantNum := digitsToNat (intDigits ++ fracDigits)
    let e : Int := match cs2 with
      | 'e' :: rest => parseExpPart rest
      | 'E' :: rest => parseExpPart rest
      | _ => 0
    let num : Nat := if 0 ≤ e then mantNum * 10 ^ e.toNat else mantNum
    let den : Nat :=
      if 0 ≤ e then 10 ^ fracDigits.length
      else 10 ^ fracDigits.length * 10 ^ (-e).toNat
    some (mkRat (if neg then -(num : Int) else (num : Int)) den)

/-- Least k (up to the fuel) such that den divides 10^k; q * 10^k is
then an integer for a reduced fraction with that denominator. -/
def decExpAux (den : Nat) : Nat → Nat → Nat
  | k, 0 => k
  | k, fuel + 1 => if 10 ^ k % den = 0 then k else decExpAux den (k + 1) fuel

/-- Number of decimal places needed to write a rational exactly (values
parsed from decimal notation always need finitely many). -/
def decExp (den : Nat) : Nat := decExpAux den 0 64

/-- JS String(number) for the finite-decimal values this pipeline
produces: sign, integer part, and the shortest fraction (integers print
with no point, matching the shortest-round-trip rule of JS for them).
q.num / q.den is in lowest terms, so with k = decExp q.den the natural
number |q.num| * (10^k / q.den) is q * 10^k in magnitude. -/
def jsNumToString (q : ℚ) : String :=
  if q = 0 then "0"
  else
    let sign := if q < 0 then "-" else ""
    let k := decExp q.den
    let n := q.num.natAbs * (10 ^ k / q.den)
    if k = 0 then sign ++ Nat.repr n
    else
      let ip := n / 10 ^ k
      let fp := n % 10 ^ k
      let fs := Nat.repr fp
      let fracStr := String.mk (List.replicate (k - fs.length) '0') ++ fs
      sign ++ Nat.repr ip ++ "." ++ fracStr

/-! ## csvParser.ts: tokenizer -/

/-- The character loop of parseCSVLine: split on unquoted commas,
toggling on quotes, with doubled quotes inside a quoted field kept as a
literal quote; every finished field is trimmed. The fuel argument
bounds the remaining loop iterations (the source indexes i over the
characters; one step consumes one or, for an escaped quote, two
characters, so fuel = length of the character list always suffices and
the fuel-exhausted branch is unreachable). -/
def parseCSVLineAux : Nat → List Char → Bool → List Char → List String → List String
  | 0, _, _, current, acc => acc ++ [strTrim (String.mk current)]
  | fuel + 1, cs, insideQuotes, current, acc =>
    match cs with
    | [] => acc ++ [strTrim (String.mk current)]
    | '"' :: rest =>
      if insideQuotes then
        match rest with
        | '"' :: rest2 => parseCSVLineAux fuel rest2 true (current ++ ['"']) acc
        | _ => parseCSVLineAux fuel rest false current acc
      else parseCSVLineAux fuel rest true current acc
    | ',' :: rest =>
      if insideQuotes then parseCSVLineAux fuel rest insideQuotes (current ++ [',']) acc
      else parseCSVLineAux fuel rest false [] (acc ++ [strTrim (String.mk current)])
    | c :: rest => parseCSVLineAux fuel rest insideQuotes (current ++ [c]) acc

/-- parseCSVLine of csvParser.ts. -/
def parseCSVLine (line : String) : List String :=
  parseCSVLineAux line.data.length line.data false [] []

/-! ## csvParser.ts: financial-statement extractor -/

/-- ParsedCSVData of csvParser.ts. -/
structure ParsedCSVData where
  headers : List String
  rows : List ParsedRow
  rawData : List (List String)
  format : FileFormat
  detectedColumns : Option DetectedColumns := none
  columnMappingConfidence : Option Int := none
deriving DecidableEq

/-- The currentType state of parseFinancialStatementCSV. -/
inductive SectionType where
  | income | expense
deriving DecidableEq

/-- JS String.prototype.startsWith, character-wise. -/
def strStartsWith (s p : String) : Bool :=
  p.data.isPrefixOf s.data

/-- The subtotal/summary regex of parseFinancialStatementCSV, applied
to the lower-cased trimmed name: leading total-plus-whitespace, or a
noi / net operating / operating income / operating expense lead. -/
def finSummaryPattern (lower : String) : Bool :=
  (match lower.data with
   | 't' :: 'o' :: 't' :: 'a' :: 'l' :: c :: _ => isWsChar c
   | _ => false) ||
  strStartsWith lower "noi" ||
  strStartsWith lower "net operating" ||
  strStartsWith lower "operating income" ||
  strStartsWith lower "operating expense"

/-- The amount-cleaning of parseFinancialStatementCSV: delete every
comma, dollar sign and parenthesis (no negation is applied). -/
def cleanAmountFS (raw : String) : String :=
  String.mk (raw.data.filter (fun c => !(c = ',' || c = '$' || c = '(' || c = ')')))

/-- One iteration of the line loop of parseFinancialStatementCSV,
carrying (currentType, rows, rawData). -/
def finStep (totalIdx : Option Nat)
    (st : Option SectionType × List ParsedRow × List (List String))
    (rawLine : String) :
    Option SectionType × List ParsedRow × List (List String) :=
  let cur := st.1
  let rows := st.2.1
  let rawData := st.2.2
  let line := strTrim rawLine
  if line = "" then st
  else
    let values := parseCSVLine line
    let accountName := strTrim (values.headD "")
    if accountName = "" then st
    else
      let trimmedName := strTrim accountName
      let lower := lowerStr trimmedName
      if lower = "income" then (some .income, rows, rawData)
      else if lower = "expense" then (some .expense, rows, rawData)
      else if finSummaryPattern lower then st
      else
        match cur with
        | none => st
        | some sec =>
          let rawAmount := match totalIdx with
            | some i => values.getD i ""
            | none => ""
          let cleanAmount := cleanAmountFS rawAmount
          if cleanAmount = "" then st
          else
            match parseFloatJS cleanAmount with
            | none => st
            | some _ =>
              let row : ParsedRow :=
                [("Type", if sec = SectionType.income then "Income" else "Expense"),
                 ("Name", trimmedName), ("Amount", cleanAmount),
                 ("Frequency", "monthly"), ("Category", "Other"),
                 ("Status", "Active")]
              (cur, rows ++ [row], rawData ++ [values])

/-- parseFinancialStatementCSV of csvParser.ts: one output row per
qualifying line item, taking the amount from the Total column. -/
def parseFinancialStatementCSV (lines : List String) : ParsedCSVData :=
  let headers := (parseCSVLine (lines.headD "")).map strTrim
  let totalIdx := headers.findIdx? (fun h => lowerStr h = "total")
  let res := (lines.drop 1).foldl (finStep totalIdx) (none, [], [headers])
  { headers := ["Type", "Name", "Amount", "Frequency", "Category", "Status"]
    rows := res.2.1
    rawData := res.2.2
    format := .financialStatement }

/-! ## csvParser.ts: flexible and bank-statement extractors -/

/-- The keep condition of parseFlexibleCSV: some produced value is
truthy and trims to something non-empty. -/
def flexKeep (r : ParsedRow) : Bool :=
  r.any (fun p => p.2 ≠ "" && strTrim p.2 ≠ "")

/-- parseFlexibleCSV of csvParser.ts. -/
def parseFlexibleCSV (csvLines : List (List String)) (headers : List String)
    (dc : DetectedColumns) : ParsedCSVData :=
  let step := fun (st : List ParsedRow × List (List String)) (rawRow : List String) =>
    if rawRow.all (fun cell => cell = "") then st
    else
      let mapped := mapRow rawRow dc.mapping headers
      if flexKeep mapped then (st.1 ++ [mapped], st.2 ++ [rawRow]) else st
  let res := (csvLines.drop 1).foldl step ([], [headers])
  let parsedHeaders := match res.1 with
    | [] => headers
    | r :: _ => r.map (·.1)
  { headers := parsedHeaders
    rows := res.1
    rawData := res.2
    format := if dc.detectedFormat = FileFormat.bankStatement then
        FileFormat.bankStatement else FileFormat.simple
    detectedColumns := some dc
    columnMappingConfidence := some dc.confidence }

/-- The JS idiom expr || fallback on an optional string field. -/
def jsOr (o : Option String) (d : String) : String :=
  if truthy o then o.getD "" else d

/-- Set Type then Amount, as the debit/credit branch of
parseBankStatementCSV does. -/
def setAmtType (r : ParsedRow) (ty : String) (v : ℚ) : ParsedRow :=
  setKey (setKey r "Type" ty) "Amount" (jsNumToString v)

/-- The debit/credit inference of parseBankStatementCSV: when a Debit
or Credit value is present, parse both (missing or empty reads as "0",
NaN compares false) and classify by the first positive one. -/
def bankDC (r : ParsedRow) : ParsedRow :=
  if truthy (getKey r "Debit") || truthy (getKey r "Credit") then
    match parseFloatJS (jsOr (getKey r "Debit") "0"),
          parseFloatJS (jsOr (getKey r "Credit") "0") with
    | some d, some c =>
      if 0 < d then setAmtType r "Expense" d
      else if 0 < c then setAmtType r "Income" c
      else r
    | some d, none => if 0 < d then setAmtType r "Expense" d else r
    | none, some c => if 0 < c then setAmtType r "Income" c else r
    | none, none => r
  else r

/-- A default fill of parseBankStatementCSV: set only when the field is
still falsy. -/
def applyDefault (r : ParsedRow) (k v : String) : ParsedRow :=
  if truthy (getKey r k) then r else setKey r k v

/-- The per-row post-processing of parseBankStatementCSV: debit/credit
inference then the four default fills, in source order. -/
def bankPostProcess (r : ParsedRow) : ParsedRow :=
  applyDefault
    (applyDefault
      (applyDefault (applyDefault (bankDC r) "Type" "Expense")
        "Frequency" "one-time")
      "Category" "Other")
    "Name" "Transaction"

/-- parseBankStatementCSV of csvParser.ts. -/
def parseBankStatementCSV (csvLines : List (List String)) (headers : List String)
    (dc : DetectedColumns) : ParsedCSVData :=
  let step := fun (st : List ParsedRow × List (List String)) (rawRow : List String) =>
    if rawRow.all (fun cell => cell = "") then st
    else
      let mapped := bankPostProcess (mapRow rawRow dc.mapping headers)
      (st.1 ++ [mapped], st.2 ++ [rawRow])
  let res := (csvLines.drop 1).foldl step ([], [headers])
  { headers := ["Type", "Date", "Name", "Amount", "Frequency", "Category"]
    rows := res.1
    rawData := res.2
    format := .bankStatement
    detectedColumns := some dc
    columnMappingConfidence := some dc.confidence }

/-- The character loop behind JS String.prototype.split with a newline
separator: empty segments are kept and the empty string yields one
empty segment. -/
def splitNlAux : List Char → List Char → List String
  | [], cur => [String.mk cur]
  | c :: rest, cur =>
    if c = '\n' then String.mk cur :: splitNlAux rest []
    else splitNlAux rest (cur ++ [c])

/-- content.split(newline) of JS. -/
def jsSplitNl (s : String) : List String := splitNlAux s.data []

/-- parseCSV of csvParser.ts: tokenize, detect columns on the header
row and dispatch on the detected format. (JS String.split never yields
an empty array, so the empty-file throw of the source is unreachable;
it is kept for fidelity.) -/
def parseCSV (content : String) : Except String ParsedCSVData :=
  match jsSplitNl (strTrim content) with
  | [] => .error "Empty CSV file"
  | l0 :: ls =>
    let csvLines := (l0 :: ls).map parseCSVLine
    let headers := (parseCSVLine l0).map strTrim
    let dc := detectColumns headers
    if dc.detectedFormat = FileFormat.financialStatement then
      .ok (parseFinancialStatementCSV (l0 :: ls))
    else if dc.detectedFormat = FileFormat.bankStatement then
      .ok (parseBankStatementCSV csvLines headers dc)
    else .ok (parseFlexibleCSV csvLines headers dc)

/-! ## Helper lemmas -/

/-- Accumulating fold of a scored list is the starting value plus the
sum of the scores. -/
theorem foldl_add_eq_sum {α : Type} (f : α → Nat) :
    ∀ (l : List α) (s : Nat), l.foldl (fun a x => a + f x) s = s + (l.map f).sum
  | [], s => by simp
  | x :: l, s => by
    rw [List.foldl_cons, foldl_add_eq_sum f l (s + f x), List.map_cons, List.sum_cons]
    omega

/-- A max-fold never exceeds the start plus the sum of the list. -/
theorem foldl_max_le_add_sum :
    ∀ (l : List Nat) (s : Nat), l.foldl max s ≤ s + l.sum
  | [], s => by simp
  | x :: l, s => by
    rw [List.foldl_cons, List.sum_cons]
    calc (l.foldl max (max s x)) ≤ max s x + l.sum := foldl_max_le_add_sum l (max s x)
      _ ≤ s + (x + l.sum) := by omega

theorem getKey_setKey_self : ∀ (r : ParsedRow) (k v : String),
    getKey (setKey r k v) k = some v
  | [], k, v => by simp [setKey, getKey]
  | (k', v') :: rest, k, v => by
    by_cases h : k' = k <;>
      simp [setKey, getKey, h, getKey_setKey_self rest k v]

theorem getKey_setKey_ne : ∀ (r : ParsedRow) (k k' v : String), k' ≠ k →
    getKey (setKey r k v) k' = getKey r k'
  | [], k, k', v, h => by simp [setKey, getKey, Ne.symm h]
  | (k0, v0) :: rest, k, k', v, h => by
    by_cases h0 : k0 = k
    · subst h0
      simp [setKey, getKey, Ne.symm h]
    · by_cases h1 : k0 = k'
      · subst h1
        simp [setKey, getKey, h0]
      · simp [setKey, getKey, h0, h1, getKey_setKey_ne rest k k' v h]

theorem applyDefault_of_truthy (r : ParsedRow) (k v : String)
    (h : truthy (getKey r k) = true) : applyDefault r k v = r := by
  simp [applyDefault, h]

theorem getKey_applyDefault_ne (r : ParsedRow) (k k' v : String) (h : k' ≠ k) :
    getKey (applyDefault r k v) k' = getKey r k' := by
  unfold applyDefault
  split
  · rfl
  · exact getKey_setKey_ne r k k' v h

/-! ## Claim theorems -/

/-- C1. The financial-statement extractor in src emits exactly one row
per qualifying line item, with the Amount read from the Total column
and with no Transaction Date field: on the zero-value example of the
repository's own test suite it produces 2 rows with Amounts 6000 and
100, where the test (and the claim) require one row per non-zero month
(3 rows, Entertainment dated 2025-02-01 only). -/
theorem financial_statement_total_rows_eval :
    (parseFinancialStatementCSV
        ["Account Name,Jan 2025,Feb 2025,Total", "Expense",
         "Rent,3000,3000,6000", "Entertainment,0,100,100"]).rows =
      [[("Type", "Expense"), ("Name", "Rent"), ("Amount", "6000"),
        ("Frequency", "monthly"), ("Category", "Other"), ("Status", "Active")],
       [("Type", "Expense"), ("Name", "Entertainment"), ("Amount", "100"),
        ("Frequency", "monthly"), ("Category", "Other"), ("Status", "Active")]] ∧
    (parseCSV
        "Account Name,Jan 2025,Feb 2025,Total\nExpense\nRent,3000,3000,6000\nEntertainment,0,100,100").toOption
      = some (parseFinancialStatementCSV
        ["Account Name,Jan 2025,Feb 2025,Total", "Expense",
         "Rent,3000,3000,6000", "Entertainment,0,100,100"]) := by
  constructor
  · decide
  · decide

/-- C2. detectColumns multiplies the mean per-column confidence by 100:
for the single exactly-matching header "date" the per-column confidence
is 100 but the returned confidence is 10000, outside the documented
0-100 range. -/
theorem detect_columns_confidence_overflow :
    (detectColumnType "date").confidence = 100 ∧
    (detectColumns ["date"]).confidence = 10000 ∧
    ¬ ((detectColumns ["date"]).confidence ≤ 100) := by
  refine ⟨by decide, ?_, ?_⟩ <;> decide

/-- C4. The amount cleaning of the financial-statement extractor
deletes parentheses without negating: the cell (500) cleans to "500",
parses to 500 (not -500), and flows into the output row as Amount
"500", contradicting the accounting-notation claim and the repository
test that expects -500. -/
theorem paren_amount_not_negated :
    cleanAmountFS "(500)" = "500" ∧
    parseFloatJS (cleanAmountFS "(500)") = some 500 ∧
    (parseFinancialStatementCSV
        ["Account,Jan 2025,Feb 2025,Total", "Expense", "Refund,(500),0,(500)"]).rows =
      [[("Type", "Expense"), ("Name", "Refund"), ("Amount", "500"),
        ("Frequency", "monthly"), ("Category", "Other"), ("Status", "Active")]] ∧
    (500 : ℚ) ≠ -500 := by
  refine ⟨by decide, by decide, by decide, by norm_num⟩

/-- C5 counterexample. For the header "amt value" the aliases amt and
value of the amount type each score 80; the detector sums them to 160
(capping the column confidence at 100), while the per-alias maximum
(computed by scoreSuggestion, the formula the claim describes) is 80 -
so the match score is not the per-alias maximum. -/
theorem alias_scores_summed_example :
    matchScore (normalizeHeader "amt value") ColumnType.amount = 160 ∧
    scoreSuggestion (normalizeHeader "amt value") ColumnType.amount = 80 ∧
    (detectColumnType "amt value").confidence = 100 ∧
    (160 : Nat) ≠ 80 := by
  refine ⟨by decide, by decide, by decide, by decide⟩

/-- C5 amended. The match score of a column type is the sum of the
per-alias scores (the reduce of the source), and therefore always
dominates the per-alias maximum that scoreSuggestion computes. -/
theorem match_score_sum_dominates_max (n : String) (t : ColumnType) :
    matchScore n t = ((COLUMN_ALIASES t).map (scoreAlias n)).sum ∧
    scoreSuggestion n t ≤ matchScore n t := by
  have hsum : matchScore n t = ((COLUMN_ALIASES t).map (scoreAlias n)).sum := by
    unfold matchScore
    rw [foldl_add_eq_sum (scoreAlias n) (COLUMN_ALIASES t) 0]
    omega
  refine ⟨hsum, ?_⟩
  unfold scoreSuggestion
  calc ((COLUMN_ALIASES t).map (scoreAlias n)).foldl max 0
      ≤ 0 + ((COLUMN_ALIASES t).map (scoreAlias n)).sum :=
        foldl_max_le_add_sum _ 0
    _ = matchScore n t := by omega

/-- C6 counterexample. With a name column before a description column,
the non-empty description value Memo overwrites the already-set
non-empty Name Alice: the later description column does overwrite. -/
theorem later_description_overwrites_example :
    getKey (mapRow ["Alice", "Memo"]
        [(0, ColumnType.name), (1, ColumnType.description)] ["n", "d"]) "Name"
      = some "Memo" ∧
    some "Memo" ≠ some "Alice" := by
  refine ⟨by decide, by decide⟩

/-- C10. A header whose normalized form is exactly total exact-matches
the total alias of the amount type, which precedes the total type in
the catalog scan, so the detector returns amount with confidence 100
(and the suggestion list [amount]); such a header is never typed
total. -/
theorem total_header_detects_amount (h : String)
    (hn : normalizeHeader h = "total") :
    detectColumnType h =
      { type := ColumnType.amount, confidence := 100,
        suggestions := [ColumnType.amount] } := by
  unfold detectColumnType
  rw [hn]
  decide

/-- Witness for C10 at the concrete header Total. -/
theorem total_header_detects_amount_witness :
    normalizeHeader "Total" = "total" ∧
    detectColumnType "Total" =
      { type := ColumnType.amount, confidence := 100,
        suggestions := [ColumnType.amount] } :=
  ⟨by decide, total_header_detects_amount "Total" (by decide)⟩

/-- C3 counterexample. An input whose detected format is unknown comes
back from parseCSV with top-level format simple, not unknown: the
flexible extractor maps every non-bank detection to simple. -/
theorem unknown_format_reported_simple :
    (detectColumns ["zzz"]).detectedFormat = FileFormat.unknown ∧
    (parseCSV "zzz\nfoo").toOption.map ParsedCSVData.format
      = some FileFormat.simple ∧
    FileFormat.simple ≠ FileFormat.unknown := by
  refine ⟨by decide, by decide, by decide⟩

/-- C3 amended. When the detector classifies the headers as unknown,
parseCSV still raises nothing and returns the flexible extraction; the
dataset carries the detector output (detectedFormat unknown and its
confidence) but its own format field says simple. -/
theorem unknown_format_flexible_extraction (content l0 : String) (ls : List String)
    (hsplit : jsSplitNl (strTrim content) = l0 :: ls)
    (hunknown : (detectColumns ((parseCSVLine l0).map strTrim)).detectedFormat
      = FileFormat.unknown) :
    ∃ ds : ParsedCSVData,
      parseCSV content = Except.ok ds ∧
      ds.format = FileFormat.simple ∧
      ds.detectedColumns = some (detectColumns ((parseCSVLine l0).map strTrim)) ∧
      ds.columnMappingConfidence
        = some (detectColumns ((parseCSVLine l0).map strTrim)).confidence := by
  refine ⟨parseFlexibleCSV ((l0 :: ls).map parseCSVLine)
      ((parseCSVLine l0).map strTrim)
      (detectColumns ((parseCSVLine l0).map strTrim)), ?_, ?_, ?_, ?_⟩
  · unfold parseCSV
    rw [hsplit]
    simp [hunknown]
  · simp [parseFlexibleCSV, hunknown]
  · simp [parseFlexibleCSV]
  · simp [parseFlexibleCSV]

/-- Witness for C3 at the concrete input zzz-newline-foo. -/
theorem unknown_format_flexible_extraction_witness :
    jsSplitNl (strTrim "zzz\nfoo") = ["zzz", "foo"] ∧
    (detectColumns ((parseCSVLine "zzz").map strTrim)).detectedFormat
      = FileFormat.unknown ∧
    ∃ ds : ParsedCSVData,
      parseCSV "zzz\nfoo" = Except.ok ds ∧
      ds.format = FileFormat.simple ∧
      ds.detectedColumns = some (detectColumns ((parseCSVLine "zzz").map strTrim)) ∧
      ds.columnMappingConfidence
        = some (detectColumns ((parseCSVLine "zzz").map strTrim)).confidence :=
  ⟨by decide, by decide,
    unknown_format_flexible_extraction "zzz\nfoo" "zzz" ["foo"] (by decide) (by decide)⟩

/-- C6 amended. Both name and description columns write the canonical
Name field, but the rule is last-non-empty-wins: a later non-empty
description value overwrites an already-set Name, while a later empty
value preserves it. -/
theorem name_last_nonempty_wins (n d : String) (hs : List String)
    (hn : n ≠ "") (hd : d ≠ "") :
    getKey (mapRow [n, d]
        [(0, ColumnType.name), (1, ColumnType.description)] hs) "Name" = some d ∧
    getKey (mapRow [n, ""]
        [(0, ColumnType.name), (1, ColumnType.description)] hs) "Name" = some n := by
  constructor
  · simp [mapRow, mapRowStep, setKey, getKey, List.getD, hn, hd]
  · simp [mapRow, mapRowStep, setKey, getKey, List.getD, hn]

/-- Witness for C6 at the concrete row Alice/Memo. -/
theorem name_last_nonempty_wins_witness :
    getKey (mapRow ["Alice", "Memo"]
        [(0, ColumnType.name), (1, ColumnType.description)] ["h1", "h2"]) "Name"
      = some "Memo" ∧
    getKey (mapRow ["Alice", ""]
        [(0, ColumnType.name), (1, ColumnType.description)] ["h1", "h2"]) "Name"
      = some "Alice" :=
  name_last_nonempty_wins "Alice" "Memo" ["h1", "h2"] (by decide) (by decide)

/-- C7. With a Debit or Credit value present, a positive debit makes
the row an Expense with the debit as Amount; otherwise a positive
credit makes it an Income with the credit as Amount, and the later
default fills never disturb either field. -/
theorem debit_credit_inference (r : ParsedRow)
    (hpresent : (truthy (getKey r "Debit") || truthy (getKey r "Credit")) = true) :
    (∀ d : ℚ, parseFloatJS (jsOr (getKey r "Debit") "0") = some d → 0 < d →
      getKey (bankPostProcess r) "Type" = some "Expense" ∧
      getKey (bankPostProcess r) "Amount" = some (jsNumToString d)) ∧
    (∀ c : ℚ, parseFloatJS (jsOr (getKey r "Credit") "0") = some c → 0 < c →
      (∀ d : ℚ, parseFloatJS (jsOr (getKey r "Debit") "0") = some d → ¬ 0 < d) →
      getKey (bankPostProcess r) "Type" = some "Income" ∧
      getKey (bankPostProcess r) "Amount" = some (jsNumToString c)) := by
  have final : ∀ (ty : String) (v : ℚ), ty ≠ "" →
      bankDC r = setAmtType r ty v →
      getKey (bankPostProcess r) "Type" = some ty ∧
      getKey (bankPostProcess r) "Amount" = some (jsNumToString v) := by
    intro ty v hne hbd
    have hty : getKey (setAmtType r ty v) "Type" = some ty := by
      unfold setAmtType
      rw [getKey_setKey_ne _ _ _ _ (by decide : ("Type" : String) ≠ "Amount")]
      exact getKey_setKey_self _ _ _
    have htruthy : truthy (getKey (setAmtType r ty v) "Type") = true := by
      rw [hty]
      simp [truthy, hne]
    have hd1 : applyDefault (setAmtType r ty v) "Type" "Expense" = setAmtType r ty v :=
      applyDefault_of_truthy _ _ _ htruthy
    unfold bankPostProcess
    rw [hbd, hd1]
    constructor
    · rw [getKey_applyDefault_ne _ _ _ _ (by decide : ("Type" : String) ≠ "Name"),
        getKey_applyDefault_ne _ _ _ _ (by decide : ("Type" : String) ≠ "Category"),
        getKey_applyDefault_ne _ _ _ _ (by decide : ("Type" : String) ≠ "Frequency")]
      exact hty
    · rw [getKey_applyDefault_ne _ _ _ _ (by decide : ("Amount" : String) ≠ "Name"),
        getKey_applyDefault_ne _ _ _ _ (by decide : ("Amount" : String) ≠ "Category"),
        getKey_applyDefault_ne _ _ _ _ (by decide : ("Amount" : String) ≠ "Frequency")]
      exact getKey_setKey_self _ _ _
  constructor
  · intro d hd hdpos
    refine final "Expense" d (by decide) ?_
    unfold bankDC
    rw [if_pos hpresent, hd]
    cases hc : parseFloatJS (jsOr (getKey r "Credit") "0") with
    | none => simp [hdpos]
    | some c => simp [hdpos]
  · intro c hc hcpos hnd
    refine final "Income" c (by decide) ?_
    unfold bankDC
    rw [if_pos hpresent]
    cases hdb : parseFloatJS (jsOr (getKey r "Debit") "0") with
    | none =>
      rw [hc]
      simp [hcpos]
    | some d0 =>
      rw [hc]
      simp [hnd d0 hdb, hcpos]

/-- Witness for C7 at the two concrete rows of the claim: Debit 50 /
Credit 0 and Debit 0 / Credit 200. -/
theorem debit_credit_inference_witness :
    getKey (bankPostProcess [("Debit", "50"), ("Credit", "0")]) "Type"
      = some "Expense" ∧
    getKey (bankPostProcess [("Debit", "50"), ("Credit", "0")]) "Amount"
      = some "50" ∧
    getKey (bankPostProcess [("Debit", "0"), ("Credit", "200")]) "Type"
      = some "Income" ∧
    getKey (bankPostProcess [("Debit", "0"), ("Credit", "200")]) "Amount"
      = some "200" := by
  have h1 := (debit_credit_inference [("Debit", "50"), ("Credit", "0")]
    (by decide)).1 50 (by decide) (by norm_num)
  have h2 := (debit_credit_inference [("Debit", "0"), ("Credit", "200")]
    (by decide)).2 200 (by decide) (by norm_num) ?_
  · refine ⟨h1.1, ?_, h2.1, ?_⟩
    · rw [h1.2]
      decide
    · rw [h2.2]
      decide
  · intro d hd
    have h0 : parseFloatJS (jsOr
        (getKey [("Debit", "0"), ("Credit", "200")] "Debit") "0") = some (0 : ℚ) := by
      decide
    rw [h0] at hd
    injection hd with he
    rw [← he]
    norm_num

/-- C8. The format classifier tests the bank-statement rule first, so a
mapping satisfying both the bank-statement and the simple criteria
classifies as bank-statement. -/
theorem bank_statement_precedence (mapping : ColumnMapping) (headers : List String)
    (hbank : bankCond (mapping.map (·.2)) = true)
    (_hsimple : simpleCond (mapping.map (·.2)) = true) :
    detectFileFormat mapping headers = FileFormat.bankStatement := by
  unfold detectFileFormat
  simp [hbank]

/-- Witness for C8 at a mapping with date, description, amount and
type columns, which satisfies both criteria. -/
theorem bank_statement_precedence_witness :
    bankCond ([((0 : Nat), ColumnType.date), (1, ColumnType.description),
      (2, ColumnType.amount), (3, ColumnType.type)].map (·.2)) = true ∧
    simpleCond ([((0 : Nat), ColumnType.date), (1, ColumnType.description),
      (2, ColumnType.amount), (3, ColumnType.type)].map (·.2)) = true ∧
    detectFileFormat [((0 : Nat), ColumnType.date), (1, ColumnType.description),
      (2, ColumnType.amount), (3, ColumnType.type)] ["a", "b", "c", "d"]
      = FileFormat.bankStatement :=
  ⟨by decide, by decide,
    bank_statement_precedence _ ["a", "b", "c", "d"] (by decide) (by decide)⟩

/-- The padding list of empty cells is invisible to getD with an empty
default. -/
theorem replicate_getD : ∀ (k i : Nat), (List.replicate k ("" : String)).getD i "" = ""
  | 0, _ => by simp
  | k + 1, 0 => by simp
  | k + 1, i + 1 => by
    simp [List.replicate, replicate_getD k i]

/-- Reading past the end of a row padded with empty cells is reading
the row itself. -/
theorem pad_getD : ∀ (l : List String) (k i : Nat),
    (l ++ List.replicate k "").getD i "" = l.getD i ""
  | [], k, i => by simp [replicate_getD k i]
  | _ :: _, _, 0 => by simp
  | a :: l, k, i + 1 => by
    rw [List.cons_append, List.getD_cons_succ, List.getD_cons_succ]
    exact pad_getD l k i

/-- C9. Rows shorter than the header list never fail in mapRow: every
mapped index past the end of the row reads the empty string, so
padding a row with any number of empty trailing cells cannot change
the mapped result (and mapRow is total by construction). -/
theorem map_row_pad_empty (rawRow : List String) (mapping : ColumnMapping)
    (headers : List String) (k : Nat) :
    mapRow (rawRow ++ List.replicate k "") mapping headers
      = mapRow rawRow mapping headers := by
  unfold mapRow
  suffices h : ∀ (m : ColumnMapping) (acc : ParsedRow),
      m.foldl (fun r e => mapRowStep r ((rawRow ++ List.replicate k "").getD e.1 "") e.2) acc
        = m.foldl (fun r e => mapRowStep r (rawRow.getD e.1 "") e.2) acc from
    h mapping []
  intro m
  induction m with
  | nil => intro acc; rfl
  | cons e m ih =>
    intro acc
    simp only [List.foldl_cons, pad_getD, ih]

end Fintracker
